import Mathlib

set_option maxRecDepth 4000

/-!
Verification development for the v2fasthttp HTTP client toolkit.

The Go sources are shallowly embedded:

* a raw stream connection is a `Conn`: the bytes still unread on the wire
  (`input`) and the bytes written so far (`output`); `Write` always succeeds,
  `Read` hands over at most the requested number of bytes and reports EOF on
  an empty stream, `io.ReadFull` fails unless the full count is available;
* Go strings are `List Char` (byte/char identified, faithful for ASCII data;
  all theorems below use ASCII inputs);
* Go `int` is `Int`, bytes are `Nat` with explicit `% 256` where the source
  truncates, `uint32` arithmetic carries an explicit `% 2^32`;
* a Go function that can return an error yields `Option`/`Except`-style
  results; a Go runtime panic (out-of-range slice index) is the distinguished
  `HResult.panicked` outcome.
-/

namespace V2F

/-- Escape hatch outcomes of a handshake, mirroring the error values built by
`fmt.Errorf` in `client/proxy.go` (payloads keep the formatted arguments). -/
inductive SockErr where
  | truncatedRead
  | unexpectedVersion (v : Nat)
  | credentialsTooLong
  | authFailed (status : Nat)
  | unsupportedAuthMethod (m : Nat)
  | invalidTargetAddress (addr : List Char)
  | invalidTargetPort (port : List Char)
  | unexpectedResponseVersion (v : Nat)
  | connectFailed (reply : Nat)
  | unknownAtyp (a : Nat)
  | discardEOF
deriving DecidableEq

/-- A raw stream connection: bytes still readable and bytes written so far. -/
structure Conn where
  input : List Nat
  output : List Nat
deriving DecidableEq

/-- Result of running a handshake over a `Conn`. `panicked` models a Go
runtime panic (slice index out of range). All constructors carry the
connection state reached, so write/consumption behaviour is observable. -/
inductive HResult where
  | ok (c : Conn)
  | fail (e : SockErr) (c : Conn)
  | panicked (c : Conn)
deriving DecidableEq

/-- Connection state carried by a handshake outcome. -/
def HResult.conn : HResult → Conn
  | .ok c => c
  | .fail _ c => c
  | .panicked c => c

/-- Append bytes to the write side (`conn.Write`, which succeeds on a live
stream). -/
def Conn.write (c : Conn) (bs : List Nat) : Conn :=
  ⟨c.input, c.output ++ bs⟩

/-- Model of `io.ReadFull(conn, buf)` for a buffer of length `n`: succeeds
with exactly `n` bytes consumed, or fails when the stream is shorter. -/
def Conn.readFull (c : Conn) (n : Nat) : Option (List Nat × Conn) :=
  if n ≤ c.input.length then some (c.input.take n, ⟨c.input.drop n, c.output⟩)
  else none

/-- Model of `conn.Read(buf[:n])`: hands over `min n (length input)` bytes. -/
def Conn.readUpTo (c : Conn) (n : Nat) : List Nat × Conn :=
  (c.input.take n, ⟨c.input.drop n, c.output⟩)

/-- Loop body of `discard` in `client/proxy.go`: reads chunks of at most 16
bytes until `remaining` bytes were consumed; a zero-length read is an error.
The `fuel` argument only bounds the recursion: every successful pass consumes
at least one byte, so `fuel := remaining` makes the bound unreachable and the
function agrees with the Go loop. -/
def discardLoop : Nat → Conn → Nat → Option Conn
  | _, c, 0 => some c
  | 0, _, _ + 1 => none
  | fuel + 1, c, remaining + 1 =>
    let toRead := min 16 (remaining + 1)
    let got := (c.readUpTo toRead).1.length
    if got = 0 then none
    else discardLoop fuel (c.readUpTo toRead).2 (remaining + 1 - got)

/-- Model of `discard(r, n)`: drop `n` bytes from the stream (`n <= 0` is a
no-op in the source; here `n : Nat`, so only `n = 0`). -/
def discard (c : Conn) (n : Nat) : Option Conn :=
  if n = 0 then some c else discardLoop n c n

/-- Byte view of a Go string (`[]byte(s)`); identical to UTF-8 for the ASCII
data used throughout. -/
def toBytes (s : List Char) : List Nat :=
  s.map Char.toNat

/-- Index of the last occurrence of `ch`, accumulator form (`last` in
`net.SplitHostPort`). -/
def lastIndexOfAux (ch : Char) : List Char → Nat → Option Nat → Option Nat
  | [], _, best => best
  | c :: rest, i, best =>
    lastIndexOfAux ch rest (i + 1) (if c = ch then some i else best)

/-- Index of the last occurrence of `ch` in `s`. -/
def lastIndexOf (ch : Char) (s : List Char) : Option Nat :=
  lastIndexOfAux ch s 0 none

/-- Index of the first occurrence of `ch` in `s`. -/
def firstIndexOf (ch : Char) : List Char → Option Nat
  | [] => none
  | c :: rest => if c = ch then some 0 else (firstIndexOf ch rest).map (· + 1)

/-- Model of `net.SplitHostPort`: split at the last colon; an unbracketed
host may not contain a colon, and neither part may contain square brackets.
The bracketed form `[host]:port` requires the final colon right after the
first `]`. Errors collapse to `none` (the callers wrap them in a single
invalid-target-address error). -/
def splitHostPort (s : List Char) : Option (List Char × List Char) :=
  match lastIndexOf ':' s with
  | none => none
  | some i =>
    if s.head? = some '[' then
      match firstIndexOf ']' s with
      | none => none
      | some j =>
        if i = j + 1 then
          let host := (s.take j).drop 1
          let port := s.drop (i + 1)
          if (s.drop 1).contains '[' ∨ (s.drop (j + 1)).contains ']' then none
          else some (host, port)
        else none
    else
      let host := s.take i
      let port := s.drop (i + 1)
      if host.contains ':' ∨ s.contains '[' ∨ s.contains ']' then none
      else some (host, port)

/-- Numeric value of a digit string (caller checks the digits). -/
def digitsVal (s : List Char) : Nat :=
  s.foldl (fun acc c => acc * 10 + (c.toNat - 48)) 0

/-- Model of `strconv.Atoi`: optional sign followed by at least one digit.
(64-bit overflow is not modelled; every caller range-checks the value, with
the same outcome.) -/
def atoi (s : List Char) : Option Int :=
  match s with
  | [] => none
  | c :: rest =>
    if c = '+' then
      if rest ≠ [] ∧ rest.all Char.isDigit then some ((digitsVal rest : Nat) : Int) else none
    else if c = '-' then
      if rest ≠ [] ∧ rest.all Char.isDigit then some (-((digitsVal rest : Nat) : Int)) else none
    else if s.all Char.isDigit then some ((digitsVal s : Nat) : Int)
    else none

/-- Field of a dotted-quad IPv4 literal as accepted by `net.ParseIP`:
1–3 digits, no leading zero, value at most 255. -/
def v4Field (f : List Char) : Option Nat :=
  if f = [] then none
  else if ¬ f.all Char.isDigit then none
  else if 3 < f.length then none
  else if 1 < f.length ∧ f.head? = some '0' then none
  else if 255 < digitsVal f then none
  else some (digitsVal f)

/-- Model of `net.ParseIP(host).To4()` for hosts without a colon (the only
hosts reaching it here): a dotted quad yields its four bytes, anything else
is `none`. -/
def parseIPv4 (s : List Char) : Option (List Nat) :=
  match (s.splitOn '.').map v4Field with
  | [some a, some b, some c, some d] => some [a, b, c, d]
  | _ => none

/-- SOCKS5 method-selection step (`switch resp[1]` in `socks5Handshake`):
NoAuth is a no-op, UserPass runs the credential sub-negotiation, anything
else is an unsupported-method error. -/
def socks5Auth (username password : List Char) (method : Nat) (c : Conn) : HResult :=
  if method = 0x00 then .ok c
  else if method = 0x02 then
    if 255 < username.length ∨ 255 < password.length then .fail .credentialsTooLong c
    else
      let buf := [0x01, username.length] ++ toBytes username ++
        [password.length] ++ toBytes password
      let c := c.write buf
      match c.readFull 2 with
      | none => .fail .truncatedRead c
      | some (authResp, c) =>
        if authResp.getD 1 0 ≠ 0x00 then .fail (.authFailed (authResp.getD 1 0)) c
        else .ok c
  else .fail (.unsupportedAuthMethod method) c

/-- Bound-address discard step of `socks5Handshake` (`switch resp[3]`). Dead
code in practice: the reply buffer only ever holds 2 bytes, so the index 3
access panics before this switch is reached. Kept for source fidelity. -/
def socks5DiscardBound (atyp : Nat) (c : Conn) : HResult :=
  if atyp = 0x01 then
    match discard c 6 with
    | none => .fail .discardEOF c
    | some c => .ok c
  else if atyp = 0x03 then
    match c.readFull 1 with
    | none => .fail .truncatedRead c
    | some (lenBuf, c) =>
      match discard c (lenBuf.getD 0 0 + 2) with
      | none => .fail .discardEOF c
      | some c => .ok c
  else if atyp = 0x04 then
    match discard c 18 with
    | none => .fail .discardEOF c
    | some c => .ok c
  else .fail (.unknownAtyp atyp) c

/-- SOCKS5 connect request bytes: version, CONNECT, reserved, DOMAIN atyp,
length-prefixed host, big-endian port (`byte(len(hostBytes))` truncates). -/
def connectRequest (host : List Char) (port : Nat) : List Nat :=
  [0x05, 0x01, 0x00, 0x03, (toBytes host).length % 256] ++ toBytes host ++
    [port / 256, port % 256]

/-- Connect-reply phase of `socks5Handshake`. Source-faithful including the
bug: the reply is read into the 2-byte greeting buffer (`resp`), so only two
header bytes are consumed, and the subsequent `resp[3]` access is an
out-of-range panic whenever the version/reply checks pass. -/
def socks5ReadReply (c : Conn) : HResult :=
  match c.readFull 2 with
  | none => .fail .truncatedRead c
  | some (resp, c) =>
    if resp.getD 0 0 ≠ 0x05 then .fail (.unexpectedResponseVersion (resp.getD 0 0)) c
    else if resp.getD 1 0 ≠ 0x00 then .fail (.connectFailed (resp.getD 1 0)) c
    else
      match resp.get? 3 with
      | none => .panicked c
      | some atyp => socks5DiscardBound atyp c

/-- Destination-address phase of `socks5Handshake`: split host:port, parse
and range-check the port, then send the connect request and process the
reply. -/
def socks5Connect (destAddr : List Char) (c : Conn) : HResult :=
  match splitHostPort destAddr with
  | none => .fail (.invalidTargetAddress destAddr) c
  | some (host, portStr) =>
    match atoi portStr with
    | none => .fail (.invalidTargetPort portStr) c
    | some p =>
      if p < 1 ∨ 65535 < p then .fail (.invalidTargetPort portStr) c
      else socks5ReadReply (c.write (connectRequest host p.toNat))

/-- Model of `socks5Handshake(conn, username, password, destAddr)` from
`client/proxy.go`: greeting, method selection/authentication, connect
request, reply processing. -/
def socks5Handshake (username password destAddr : List Char) (c0 : Conn) : HResult :=
  let methods : List Nat := if username ≠ [] ∨ password ≠ [] then [0x00, 0x02] else [0x00]
  let c1 := c0.write ([0x05, methods.length] ++ methods)
  match c1.readFull 2 with
  | none => .fail .truncatedRead c1
  | some (resp, c2) =>
    if resp.getD 0 0 ≠ 0x05 then .fail (.unexpectedVersion (resp.getD 0 0)) c2
    else
      match socks5Auth username password (resp.getD 1 0) c2 with
      | .fail e c => .fail e c
      | .panicked c => .panicked c
      | .ok c3 => socks5Connect destAddr c3

/-- Model of `socks4Handshake(conn, username, destAddr)` from
`client/proxy.go`: validate host:port, build the single SOCKS4/4a request
(literal IPv4 address, or the 0.0.0.1 placeholder plus trailing host in
domain-name mode), send it, read the 8-byte response, and accept exactly
reply code 0x5A. -/
def socks4Handshake (username destAddr : List Char) (c : Conn) : HResult :=
  match splitHostPort destAddr with
  | none => .fail (.invalidTargetAddress destAddr) c
  | some (host, portStr) =>
    match atoi portStr with
    | none => .fail (.invalidTargetPort portStr) c
    | some p =>
      if p < 1 ∨ 65535 < p then .fail (.invalidTargetPort portStr) c
      else
        let port := p.toNat
        let ip? := parseIPv4 host
        let dstIP := match ip? with
          | some ip => ip
          | none => [0x00, 0x00, 0x00, 0x01]
        let buf := [0x04, 0x01, port / 256, port % 256] ++ dstIP ++
          toBytes username ++ [0x00] ++
          (match ip? with
            | some _ => []
            | none => toBytes host ++ [0x00])
        let c := c.write buf
        match c.readFull 8 with
        | none => .fail .truncatedRead c
        | some (resp, c) =>
          if resp.getD 1 0 ≠ 0x5A then .fail (.connectFailed (resp.getD 1 0)) c
          else .ok c

/-- Model of `isIdempotentMethod` in `client/client.go`: exact, case-sensitive
match against the six idempotent method names. -/
def isIdempotentMethod (method : String) : Bool :=
  if method = "GET" ∨ method = "HEAD" ∨ method = "OPTIONS" ∨ method = "DELETE" ∨
      method = "PUT" ∨ method = "TRACE" then true
  else false

/-- Attempt loop of `Client.Do`: `attempt` is the Go loop counter, `fuel` is
`maxAttempts - attempt` (so the loop guard `attempt < maxAttempts` is
`fuel ≥ 1` and the break test `attempt+1 >= maxAttempts` is `fuel = 1`).
Returns the number of attempts performed. -/
def attemptLoop (shouldRetryAt : Nat → Bool) : Nat → Nat → Nat
  | attempt, 0 => attempt
  | attempt, fuel + 1 =>
    if shouldRetryAt attempt = false ∨ fuel = 0 then attempt + 1
    else attemptLoop shouldRetryAt (attempt + 1) fuel

/-- Model of the retry policy of `Client.Do` in `client/client.go`, counting
attempts. `errAt a` says whether attempt `a` returned a non-nil error;
`retryIf` models the configured `RetryIf` predicate applied to attempt `a`
(`none` when unconfigured, in which case the default
"error occurred and the method is idempotent" rule applies); `hasBody` and
`hasGetBody` model `req.Body != nil` and `req.GetBody != nil`. -/
def clientDoAttempts (method : String) (hasBody hasGetBody : Bool)
    (maxIdemponentCallAttempts : Int) (retryIf : Option (Nat → Bool))
    (errAt : Nat → Bool) : Nat :=
  let maxAttempts : Nat :=
    if maxIdemponentCallAttempts ≤ 0 then 1 else maxIdemponentCallAttempts.toNat
  let idempotent := isIdempotentMethod method
  let maxAttempts :=
    if idempotent = false ∨ (hasBody = true ∧ hasGetBody = false) then 1 else maxAttempts
  let shouldRetryAt : Nat → Bool := fun attempt =>
    match retryIf with
    | some f => f attempt
    | none => errAt attempt && idempotent
  attemptLoop shouldRetryAt 0 maxAttempts

/-- Error raised by the body-capture helpers (`ErrBodyTooLarge`). -/
inductive ClientErr where
  | bodyTooLarge
deriving DecidableEq

/-- Observable outcome of `Client.GetBytes`: data returned to the caller,
error, and how many body bytes were read off the response stream. -/
structure GetBytesOut where
  data : Option (List Nat)
  err : Option ClientErr
  bytesRead : Nat
deriving DecidableEq

/-- Model of the body-capture logic of `Client.GetBytes` in
`client/client.go`: when a cap is configured the body is read through an
`io.LimitedReader` with budget `cap+1`, and a buffer longer than the cap
yields `ErrBodyTooLarge` with no data. -/
def clientGetBytes (maxResponseBodySize : Int) (body : List Nat) : GetBytesOut :=
  let readBytes :=
    if 0 < maxResponseBodySize then body.take (maxResponseBodySize.toNat + 1) else body
  if 0 < maxResponseBodySize ∧ maxResponseBodySize < (readBytes.length : Int) then
    { data := none, err := some .bodyTooLarge, bytesRead := readBytes.length }
  else
    { data := some readBytes, err := none, bytesRead := readBytes.length }

/-- Modulus of the `uint32` pool cursor. -/
def uint32Mod : Nat := 4294967296

/-- Model of `ClientPool.Next` in `api.go` over a pool of `n` clients with
current cursor value `cursor`: `atomic.AddUint32(&p.idx, 1)` then index
modulo the pool size; an empty pool returns no client. Returns the selected
index and the new cursor. -/
def clientPoolNext (n cursor : Nat) : Option Nat × Nat :=
  if n = 0 then (none, cursor)
  else
    let i := (cursor + 1) % uint32Mod
    (some (i % n), i)

/-- Indices handed out by `k` consecutive `Next()` calls. -/
def poolNextRun (n cursor : Nat) : Nat → List Nat
  | 0 => []
  | k + 1 =>
    match clientPoolNext n cursor with
    | (none, c) => poolNextRun n c k
    | (some idx, c) => idx :: poolNextRun n c k

/-- Fields of `client.Config` consulted by `newHTTP3Client`. -/
structure ClientConfig where
  enableHTTP3 : Bool
  proxyURL : List Char
  proxyUsername : List Char
  proxyPassword : List Char
  disableCompression : Bool
deriving DecidableEq

/-- The HTTP/3 side-transport (`http3.Transport`) as observable state. -/
structure HTTP3Transport where
  disableCompression : Bool
deriving DecidableEq

/-- Model of `newHTTP3Client` in `client/proxy.go`: no side-transport unless
HTTP/3 is enabled and no proxy URL or proxy credentials are configured. -/
def newHTTP3Client (cfg : ClientConfig) : Option HTTP3Transport :=
  if cfg.enableHTTP3 = false then none
  else if cfg.proxyURL ≠ [] ∨ cfg.proxyUsername ≠ [] ∨ cfg.proxyPassword ≠ [] then none
  else some ⟨cfg.disableCompression⟩

/-- Transport a request is dispatched over by `Client.doOnce`. -/
inductive Route where
  | http3
  | primary
deriving DecidableEq

/-- Model of the dispatch decision in `Client.doOnce`/`http3MaybeDo`: the
HTTP/3 side-transport handles the request only when it exists, the request
URL is present, and its scheme is https; otherwise the primary transport is
used. -/
def dispatchRoute (h3 : Option HTTP3Transport) (urlScheme : Option (List Char)) : Route :=
  match h3, urlScheme with
  | none, _ => .primary
  | some _, none => .primary
  | some _, some scheme => if scheme = ("https".toList) then .http3 else .primary

/-- Model of the HTTP-version normalization in `NewClientWithOptions`
(`api.go`): version 0 defaults to HTTP1, and HTTP3 combined with any proxy
option falls back to HTTP2. Versions are 1, 2, 3. -/
def effectiveHTTPVersion (v : Nat) (proxyHTTP socks5Proxy : List Char) : Nat :=
  let v := if v = 0 then 1 else v
  if v = 3 ∧ (proxyHTTP ≠ [] ∨ socks5Proxy ≠ []) then 2 else v

/-- Kind of transport built by `newHTTPClient` in `api.go` for each
normalized HTTP version: an `http.Transport` (TCP, HTTP/1.1 + HTTP/2) for
HTTP2, a QUIC `http3.Transport` for HTTP3, nothing otherwise. -/
inductive TransportKind where
  | tcp
  | quic
deriving DecidableEq

/-- Transport kind selected by `newHTTPClient` in `api.go`. -/
def newHTTPClientKind (v : Nat) : Option TransportKind :=
  if v = 2 then some .tcp else if v = 3 then some .quic else none

/-- Parse errors of the `net/url` model. -/
inductive URLErr where
  | missingScheme
  | firstPathSegmentColon
  | invalidPort
  | emptyProxy
deriving DecidableEq

/-- Observable fields of a parsed `net/url.URL`: scheme (already lowercased,
as `url.Parse` does), opaque part, userinfo presence and contents, host
(including any port), and path. -/
structure GoURL where
  scheme : List Char
  opaqueData : List Char
  hasUser : Bool
  username : List Char
  hasPassword : Bool
  password : List Char
  host : List Char
  path : List Char
deriving DecidableEq

/-- Valid URL scheme: a letter followed by letters, digits, `+`, `-`, `.`. -/
def validScheme (s : List Char) : Bool :=
  match s with
  | [] => false
  | c :: rest =>
    c.isAlpha && rest.all (fun d => d.isAlpha || d.isDigit || d = '+' || d = '-' || d = '.')

/-- Model of `getScheme` in `net/url`: text before the first colon is the
scheme when it is scheme-shaped, a leading colon is an error, anything else
means no scheme. -/
def getScheme (s : List Char) : Except URLErr (List Char × List Char) :=
  match firstIndexOf ':' s with
  | none => .ok ([], s)
  | some 0 => .error .missingScheme
  | some i =>
    let cand := s.take i
    if validScheme cand then .ok (cand, s.drop (i + 1)) else .ok ([], s)

/-- Model of `url.Parse` for the proxy strings used here (no query,
fragment, or percent-escapes): scheme extraction and lowercasing, opaque
form for `scheme:rest`, `//userinfo@host:port/path` authority form with the
userinfo split at its first colon and a numeric-port check on the host, and
the colon-in-first-path-segment error for scheme-less strings. -/
def urlParse (s : List Char) : Except URLErr GoURL := do
  let (scheme₀, rest) ← getScheme s
  let scheme := scheme₀.map Char.toLower
  if rest.take 2 = ['/', '/'] then
    let rest := rest.drop 2
    let authority := match firstIndexOf '/' rest with
      | none => rest
      | some i => rest.take i
    let path := match firstIndexOf '/' rest with
      | none => []
      | some i => rest.drop i
    let parts := match lastIndexOf '@' authority with
      | none => (false, ([] : List Char), false, ([] : List Char), authority)
      | some i =>
        let userinfo := authority.take i
        let hp := authority.drop (i + 1)
        match firstIndexOf ':' userinfo with
        | none => (true, userinfo, false, [], hp)
        | some j => (true, userinfo.take j, true, userinfo.drop (j + 1), hp)
    match parts with
    | (hasUser, username, hasPassword, password, hostport) =>
      match lastIndexOf ':' hostport with
      | none =>
        pure ⟨scheme, [], hasUser, username, hasPassword, password, hostport, path⟩
      | some i =>
        if (hostport.drop (i + 1)).all Char.isDigit then
          pure ⟨scheme, [], hasUser, username, hasPassword, password, hostport, path⟩
        else .error .invalidPort
  else if scheme ≠ [] then
    pure ⟨scheme, rest, false, [], false, [], [], []⟩
  else
    let seg := match firstIndexOf '/' rest with
      | none => rest
      | some i => rest.take i
    if seg.contains ':' then .error .firstPathSegmentColon
    else pure ⟨[], [], false, [], false, [], [], rest⟩

/-- Model of `URL.Hostname()` for unbracketed hosts: the part before a
trailing numeric port, else the whole host. -/
def GoURL.hostname (u : GoURL) : List Char :=
  match lastIndexOf ':' u.host with
  | none => u.host
  | some i => if (u.host.drop (i + 1)).all Char.isDigit then u.host.take i else u.host

/-- Model of `URL.Port()` for unbracketed hosts. -/
def GoURL.portStr (u : GoURL) : List Char :=
  match lastIndexOf ':' u.host with
  | none => []
  | some i => if (u.host.drop (i + 1)).all Char.isDigit then u.host.drop (i + 1) else []

/-- Substring test (`strings.Contains`). -/
def hasSubstr (pat : List Char) : List Char → Bool
  | [] => pat.isPrefixOf []
  | c :: rest => pat.isPrefixOf (c :: rest) || hasSubstr pat rest

/-- Model of `parseProxyURL` in `api.go`: reject the empty string, prefix
`defaultScheme://` when the string has no `://`, then parse as a URL. -/
def parseProxyURL (proxyStr defaultScheme : List Char) : Except URLErr GoURL :=
  if proxyStr = [] then .error .emptyProxy
  else if hasSubstr ("://".toList) proxyStr = false then
    urlParse (defaultScheme ++ ("://".toList) ++ proxyStr)
  else urlParse proxyStr

/-- Dial strategy selected by `buildProxy` in `client/proxy.go`. -/
inductive ProxyMode where
  | direct
  | httpProxy (u : GoURL)
  | socks5 (proxyAddr : List Char) (username password : List Char)
  | socks4 (proxyAddr : List Char) (username : List Char)
deriving DecidableEq

/-- Construction errors of `buildProxy`. -/
inductive BuildErr where
  | invalidProxyURL (e : URLErr)
  | unsupportedScheme (scheme : List Char)
deriving DecidableEq

/-- Model of `buildProxy` in `client/proxy.go`: empty proxy string means a
direct dial; otherwise the string must parse as a URL, URL userinfo
overrides configured credentials, and the (lowercased) scheme selects http
forwarding, a SOCKS5 or SOCKS4 dialer (port 1080 added when absent), or an
unsupported-scheme error. -/
def buildProxy (proxyURL proxyUsername proxyPassword : List Char) :
    Except BuildErr ProxyMode :=
  if proxyURL = [] then .ok .direct
  else
    match urlParse proxyURL with
    | .error e => .error (.invalidProxyURL e)
    | .ok u =>
      let username := if u.hasUser then u.username else proxyUsername
      let password := if u.hasPassword then u.password else proxyPassword
      let scheme := u.scheme.map Char.toLower
      if scheme = ("http".toList) ∨ scheme = ("https".toList) then .ok (.httpProxy u)
      else if ("socks5".toList).isPrefixOf scheme then
        let proxyAddr := if u.host.contains ':' then u.host else u.host ++ (":1080".toList)
        .ok (.socks5 proxyAddr username password)
      else if ("socks4".toList).isPrefixOf scheme then
        let proxyAddr := if u.host.contains ':' then u.host else u.host ++ (":1080".toList)
        .ok (.socks4 proxyAddr username)
      else .error (.unsupportedScheme u.scheme)

/-! ### Supporting lemmas -/

theorem readFull_append (xs rest out : List Nat) (n : Nat) (h : xs.length = n) :
    Conn.readFull ⟨xs ++ rest, out⟩ n = some (xs, ⟨rest, out⟩) := by
  subst h
  simp only [Conn.readFull, List.length_append]
  rw [if_pos (Nat.le_add_right _ _), List.take_left, List.drop_left]

theorem lastIndexOfAux_append (ch : Char) (l₁ l₂ : List Char) :
    ∀ i best, lastIndexOfAux ch (l₁ ++ l₂) i best =
      lastIndexOfAux ch l₂ (i + l₁.length) (lastIndexOfAux ch l₁ i best) := by
  induction l₁ with
  | nil => intro i best; simp [lastIndexOfAux]
  | cons c rest ih =>
    intro i best
    simp only [List.cons_append, lastIndexOfAux, List.length_cons, List.append_eq]
    rw [ih]
    have he : i + 1 + rest.length = i + (rest.length + 1) := by omega
    rw [he]

theorem lastIndexOfAux_not_mem (ch : Char) (l : List Char) (h : ch ∉ l) :
    ∀ i best, lastIndexOfAux ch l i best = best := by
  induction l with
  | nil => intro i best; rfl
  | cons c rest ih =>
    intro i best
    have hc : c ≠ ch := fun he => h (he ▸ List.mem_cons_self c rest)
    have hr : ch ∉ rest := fun hm => h (List.mem_cons_of_mem c hm)
    simp only [lastIndexOfAux, if_neg hc, ih hr]

theorem lastIndexOf_sep (ch : Char) (host port : List Char)
    (h1 : ch ∉ host) (h2 : ch ∉ port) :
    lastIndexOf ch (host ++ ch :: port) = some host.length := by
  unfold lastIndexOf
  rw [lastIndexOfAux_append, lastIndexOfAux_not_mem ch host h1]
  simp only [lastIndexOfAux]
  rw [if_pos trivial, lastIndexOfAux_not_mem ch port h2]
  simp

theorem contains_false (l : List Char) (c : Char) (h : c ∉ l) :
    l.contains c = false := by
  simp [List.elem_eq_mem, h]

theorem head_append_ne (host port : List Char) (c : Char)
    (hh : c ∉ host) (hne : c ≠ ':') :
    (host ++ ':' :: port).head? ≠ some c := by
  cases host with
  | nil => simp [hne.symm]
  | cons d rest =>
    simp only [List.cons_append, List.head?, ne_eq, Option.some.injEq]
    intro he
    exact hh (he ▸ List.mem_cons_self d rest)

theorem splitHostPort_sep (host port : List Char)
    (hc : ':' ∉ host) (hpc : ':' ∉ port)
    (hlb : '[' ∉ host) (hplb : '[' ∉ port)
    (hrb : ']' ∉ host) (hprb : ']' ∉ port) :
    splitHostPort (host ++ ':' :: port) = some (host, port) := by
  have hnb : ('[' : Char) ∉ host ++ ':' :: port := by
    intro hm
    rcases List.mem_append.1 hm with h | h
    · exact hlb h
    · rcases List.mem_cons.1 h with h | h
      · exact absurd h.symm (by decide)
      · exact hplb h
  have hnr : (']' : Char) ∉ host ++ ':' :: port := by
    intro hm
    rcases List.mem_append.1 hm with h | h
    · exact hrb h
    · rcases List.mem_cons.1 h with h | h
      · exact absurd h.symm (by decide)
      · exact hprb h
  simp only [splitHostPort, lastIndexOf_sep ':' host port hc hpc]
  rw [if_neg (head_append_ne host port '[' hlb (by decide))]
  have htake : (host ++ ':' :: port).take host.length = host := List.take_left host _
  have hdrop : (host ++ ':' :: port).drop (host.length + 1) = port := by
    have : host ++ ':' :: port = (host ++ [':']) ++ port := by simp
    rw [this, show host.length + 1 = (host ++ [':']).length by simp, List.drop_left]
  rw [htake, hdrop]
  rw [if_neg]
  intro h
  rcases h with h | h | h
  · rw [contains_false host ':' hc] at h
    exact absurd h (by decide)
  · rw [contains_false _ '[' hnb] at h
    exact absurd h (by decide)
  · rw [contains_false _ ']' hnr] at h
    exact absurd h (by decide)

theorem atoi_chars (s : List Char) (p : Int) (h : atoi s = some p) :
    ∀ c ∈ s, c = '+' ∨ c = '-' ∨ c.isDigit = true := by
  cases s with
  | nil => simp [atoi] at h
  | cons c₀ rest =>
    simp only [atoi] at h
    split_ifs at h with h1 h2 h3 h4 h5
    · intro c hm
      rcases List.mem_cons.1 hm with he | hm
      · exact Or.inl (he.trans h1)
      · exact Or.inr (Or.inr (List.all_eq_true.1 h2.2 c hm))
    · intro c hm
      rcases List.mem_cons.1 hm with he | hm
      · exact Or.inr (Or.inl (he.trans h3))
      · exact Or.inr (Or.inr (List.all_eq_true.1 h4.2 c hm))
    · intro c hm
      exact Or.inr (Or.inr (List.all_eq_true.1 h5 c hm))

theorem atoi_not_mem (s : List Char) (p : Int) (h : atoi s = some p)
    (c : Char) (hp : c ≠ '+') (hm : c ≠ '-') (hd : c.isDigit = false) :
    c ∉ s := by
  intro hmem
  rcases atoi_chars s p h c hmem with he | he | he
  · exact hp he
  · exact hm he
  · rw [hd] at he
    exact absurd he (by decide)

theorem discardLoop_output (fuel : Nat) :
    ∀ (c : Conn) (r : Nat) (c' : Conn), discardLoop fuel c r = some c' →
      c'.output = c.output := by
  induction fuel with
  | zero =>
    intro c r c' h
    match r with
    | 0 =>
      rw [show discardLoop 0 c 0 = some c from rfl] at h
      cases h; rfl
    | rr + 1 =>
      rw [show discardLoop 0 c (rr + 1) = none from rfl] at h
      cases h
  | succ f ih =>
    intro c r c' h
    match r with
    | 0 =>
      rw [show discardLoop (f + 1) c 0 = some c from rfl] at h
      cases h; rfl
    | rr + 1 =>
      have he : discardLoop (f + 1) c (rr + 1) =
          (if (c.readUpTo (min 16 (rr + 1))).1.length = 0 then none
           else discardLoop f (c.readUpTo (min 16 (rr + 1))).2
             (rr + 1 - (c.readUpTo (min 16 (rr + 1))).1.length)) := rfl
      rw [he] at h
      by_cases hz : (c.readUpTo (min 16 (rr + 1))).1.length = 0
      · rw [if_pos hz] at h; cases h
      · rw [if_neg hz] at h
        have h2 := ih _ _ _ h
        exact h2

theorem discard_output (c : Conn) (n : Nat) (c' : Conn) (h : discard c n = some c') :
    c'.output = c.output := by
  unfold discard at h
  split_ifs at h with h0
  · cases h; rfl
  · exact discardLoop_output n c n c' h

theorem socks5DiscardBound_output (atyp : Nat) (c : Conn) :
    (socks5DiscardBound atyp c).conn.output = c.output := by
  unfold socks5DiscardBound
  split_ifs with h1 h2 h3
  · cases hd : discard c 6 with
    | none => simp [hd, HResult.conn]
    | some c' => simp [hd, HResult.conn, discard_output c 6 c' hd]
  · cases hr : c.readFull 1 with
    | none => simp [hr, HResult.conn]
    | some pr =>
      have hro : pr.2.output = c.output := by
        unfold Conn.readFull at hr
        split_ifs at hr
        cases hr; rfl
      simp only [hr]
      cases hd : discard pr.2 (pr.1.getD 0 0 + 2) with
      | none => simp [hd, HResult.conn, hro]
      | some c' => simp [hd, HResult.conn, discard_output _ _ _ hd, hro]
  · cases hd : discard c 18 with
    | none => simp [hd, HResult.conn]
    | some c' => simp [hd, HResult.conn, discard_output c 18 c' hd]
  · simp [HResult.conn]

theorem socks5ReadReply_output (c : Conn) :
    (socks5ReadReply c).conn.output = c.output := by
  unfold socks5ReadReply
  cases hr : c.readFull 2 with
  | none => simp [HResult.conn]
  | some pr =>
    have hro : pr.2.output = c.output := by
      unfold Conn.readFull at hr
      split_ifs at hr
      cases hr; rfl
    simp only
    split_ifs with h1 h2
    · simp [HResult.conn, hro]
    · simp [HResult.conn, hro]
    · cases hg : pr.1.get? 3 with
      | none => simp [HResult.conn, hro]
      | some atyp => simp [socks5DiscardBound_output, hro]

theorem readFull_two (b0 b1 : Nat) (rest out : List Nat) :
    Conn.readFull ⟨b0 :: b1 :: rest, out⟩ 2 = some ([b0, b1], ⟨rest, out⟩) := by
  have h := readFull_append [b0, b1] rest out 2 rfl
  simpa using h

theorem socks5_noauth_greeting (destAddr : List Char) (rest out : List Nat) :
    socks5Handshake [] [] destAddr ⟨[0x05, 0x00] ++ rest, out⟩ =
      socks5Connect destAddr ⟨rest, out ++ [0x05, 0x01, 0x00]⟩ := by
  unfold socks5Handshake
  norm_num [Conn.write]
  rw [readFull_two 5 0 rest (out ++ [5, 1, 0])]
  norm_num [socks5Auth]

theorem socks5Connect_bad_port (host portStr : List Char) (p : Int) (c : Conn)
    (hsplit : splitHostPort (host ++ ':' :: portStr) = some (host, portStr))
    (hp : atoi portStr = some p) (hr : p < 1 ∨ 65535 < p) :
    socks5Connect (host ++ ':' :: portStr) c =
      .fail (.invalidTargetPort portStr) c := by
  simp only [socks5Connect, hsplit, hp]
  rw [if_pos hr]

/-! ### Claim theorems -/

/-- C1 (code bug): on a well-formed 10-byte SOCKS5 success reply (version
0x05, reply 0x00, atyp IPv4) the handshake does not read a 4-byte reply
header and succeed; it reads the reply into the 2-byte greeting buffer and
panics with an index-out-of-range at `resp[3]`, leaving the last 8 bytes of
the reply unconsumed on the stream. -/
theorem socks5_success_reply_panics :
    socks5Handshake [] [] (("example.com:443").toList)
        ⟨[0x05, 0x00] ++
          [0x05, 0x00, 0x00, 0x01, 0x01, 0x02, 0x03, 0x04, 0x00, 0x50], []⟩ =
      .panicked ⟨[0x00, 0x01, 0x01, 0x02, 0x03, 0x04, 0x00, 0x50],
        [0x05, 0x01, 0x00] ++ connectRequest (("example.com").toList) 443⟩ := by
  decide

/-- C2 (counterexample): with destination port 0 the SOCKS5 handshake does
fail, but only after writing the 3-byte greeting — bytes are on the wire
before the failure, contrary to the claim that no bytes are written. -/
theorem socks5_port_zero_writes_greeting :
    socks5Handshake [] [] (("example.com:0").toList) ⟨[0x05, 0x00], []⟩ =
      .fail (.invalidTargetPort (("0").toList)) ⟨[], [0x05, 0x01, 0x00]⟩ ∧
    (socks5Handshake [] [] (("example.com:0").toList)
        ⟨[0x05, 0x00], []⟩).conn.output ≠ [] := by
  decide

/-- C2 (amended): for every destination port outside [1, 65535] both
handshakes fail with an invalid-target-port error; `socks4Handshake`
validates the port before writing anything (the connection is returned
untouched), while `socks5Handshake` performs the port check only after the
greeting exchange, so on the NoAuth path it has already written the 3-byte
greeting when it fails. -/
theorem port_range_validation (host portStr : List Char) (p : Int)
    (username : List Char) (c : Conn) (rest out : List Nat)
    (hh1 : ':' ∉ host) (hh2 : '[' ∉ host) (hh3 : ']' ∉ host)
    (hp : atoi portStr = some p) (hr : p < 1 ∨ 65535 < p) :
    socks4Handshake username (host ++ ':' :: portStr) c =
      .fail (.invalidTargetPort portStr) c ∧
    socks5Handshake [] [] (host ++ ':' :: portStr) ⟨[0x05, 0x00] ++ rest, out⟩ =
      .fail (.invalidTargetPort portStr) ⟨rest, out ++ [0x05, 0x01, 0x00]⟩ := by
  have hsplit : splitHostPort (host ++ ':' :: portStr) = some (host, portStr) :=
    splitHostPort_sep host portStr hh1
      (atoi_not_mem _ _ hp ':' (by decide) (by decide) (by decide))
      hh2 (atoi_not_mem _ _ hp '[' (by decide) (by decide) (by decide))
      hh3 (atoi_not_mem _ _ hp ']' (by decide) (by decide) (by decide))
  constructor
  · simp only [socks4Handshake, hsplit, hp]
    rw [if_pos hr]
  · rw [socks5_noauth_greeting]
    exact socks5Connect_bad_port host portStr p _ hsplit hp hr

theorem port_range_validation_witness :
    socks4Handshake [] (("example.com").toList ++ ':' :: ("70000").toList)
        ⟨[], []⟩ = .fail (.invalidTargetPort (("70000").toList)) ⟨[], []⟩ ∧
    socks5Handshake [] [] (("example.com").toList ++ ':' :: ("70000").toList)
        ⟨[0x05, 0x00] ++ [], []⟩ =
      .fail (.invalidTargetPort (("70000").toList)) ⟨[], [] ++ [0x05, 0x01, 0x00]⟩ :=
  port_range_validation (("example.com").toList) (("70000").toList) 70000 []
    ⟨[], []⟩ [] [] (by decide) (by decide) (by decide) (by decide)
    (Or.inr (by norm_num))

/-- C3 (confirmed): with no configured credentials and destination
example.com:443, the SOCKS5 handshake writes exactly the 3-byte greeting
05 01 00 followed by exactly the 18-byte domain-typed connect request
05 01 00 03 0B "example.com" 01 BB, whatever the proxy sends back after the
greeting response. -/
theorem socks5_request_bytes (rest : List Nat) :
    (socks5Handshake [] [] (("example.com:443").toList)
        ⟨[0x05, 0x00] ++ rest, []⟩).conn.output =
      [0x05, 0x01, 0x00] ++
        [0x05, 0x01, 0x00, 0x03, 0x0B, 0x65, 0x78, 0x61, 0x6D, 0x70, 0x6C, 0x65,
          0x2E, 0x63, 0x6F, 0x6D, 0x01, 0xBB] := by
  rw [socks5_noauth_greeting]
  have hc : socks5Connect (("example.com:443").toList) ⟨rest, [] ++ [0x05, 0x01, 0x00]⟩ =
      socks5ReadReply ((Conn.mk rest ([] ++ [0x05, 0x01, 0x00])).write
        (connectRequest (("example.com").toList) 443)) := rfl
  rw [hc, socks5ReadReply_output]
  show ([] ++ [0x05, 0x01, 0x00]) ++ connectRequest (("example.com").toList) 443 = _
  decide

/-- C6 (confirmed): the SOCKS4/4a handshake sends the single request
04 01 portHi portLo, then the literal IPv4 address when the host parses as
one and the 0.0.0.1 placeholder otherwise, then the userid and a NUL, then
(in domain-name mode only) the hostname and a NUL; it reads an 8-byte
response and succeeds exactly when its byte at index 1 is 0x5A, failing with
that reply code embedded otherwise. -/
theorem socks4_request_wire (host portStr username : List Char) (p : Int)
    (reply rest out : List Nat)
    (hh1 : ':' ∉ host) (hh2 : '[' ∉ host) (hh3 : ']' ∉ host)
    (hp : atoi portStr = some p) (hr : ¬ (p < 1 ∨ 65535 < p))
    (hlen : reply.length = 8) :
    socks4Handshake username (host ++ ':' :: portStr) ⟨reply ++ rest, out⟩ =
      (let req := [0x04, 0x01, p.toNat / 256, p.toNat % 256] ++
          (match parseIPv4 host with
            | some ip => ip
            | none => [0x00, 0x00, 0x00, 0x01]) ++
          toBytes username ++ [0x00] ++
          (match parseIPv4 host with
            | some _ => ([] : List Nat)
            | none => toBytes host ++ [0x00])
        if reply.getD 1 0 ≠ 0x5A then
          .fail (.connectFailed (reply.getD 1 0)) ⟨rest, out ++ req⟩
        else .ok ⟨rest, out ++ req⟩) := by
  have hsplit : splitHostPort (host ++ ':' :: portStr) = some (host, portStr) :=
    splitHostPort_sep host portStr hh1
      (atoi_not_mem _ _ hp ':' (by decide) (by decide) (by decide))
      hh2 (atoi_not_mem _ _ hp '[' (by decide) (by decide) (by decide))
      hh3 (atoi_not_mem _ _ hp ']' (by decide) (by decide) (by decide))
  simp only [socks4Handshake, hsplit, hp]
  rw [if_neg hr]
  simp only [Conn.write]
  rw [readFull_append reply rest _ 8 hlen]

theorem socks4_request_wire_witness :
    socks4Handshake (("bob").toList)
        (("example.com").toList ++ ':' :: ("80").toList)
        ⟨[0x00, 0x5A, 0, 0, 0, 0, 0, 0] ++ [7, 7], []⟩ =
      (let req := [0x04, 0x01, (80 : Int).toNat / 256, (80 : Int).toNat % 256] ++
          (match parseIPv4 (("example.com").toList) with
            | some ip => ip
            | none => [0x00, 0x00, 0x00, 0x01]) ++
          toBytes (("bob").toList) ++ [0x00] ++
          (match parseIPv4 (("example.com").toList) with
            | some _ => ([] : List Nat)
            | none => toBytes (("example.com").toList) ++ [0x00])
        if ([0x00, 0x5A, 0, 0, 0, 0, 0, 0] : List Nat).getD 1 0 ≠ 0x5A then
          .fail (.connectFailed (([0x00, 0x5A, 0, 0, 0, 0, 0, 0] : List Nat).getD 1 0))
            ⟨[7, 7], [] ++ req⟩
        else .ok ⟨[7, 7], [] ++ req⟩) :=
  socks4_request_wire (("example.com").toList) (("80").toList) (("bob").toList) 80
    [0x00, 0x5A, 0, 0, 0, 0, 0, 0] [7, 7] [] (by decide) (by decide) (by decide)
    (by decide) (by norm_num) (by decide)

theorem attemptLoop_const (f : Nat → Bool) (h : ∀ a, f a = true) :
    ∀ (fuel attempt : Nat), attemptLoop f attempt fuel = attempt + fuel := by
  intro fuel
  induction fuel with
  | zero => intro a; rfl
  | succ n ih =>
    intro a
    rcases Nat.eq_zero_or_pos n with hn | hn
    · subst hn
      simp [attemptLoop, h a]
    · have hc : ¬ (f a = false ∨ n = 0) := by
        simp [h a]
        omega
      simp only [attemptLoop]
      rw [if_neg hc, ih]
      omega

/-- C4 (confirmed): with no custom retry predicate, a GET request whose
every attempt errors is attempted exactly `MaxIdemponentCallAttempts`
times, while a POST request with a non-replayable body (Body set, GetBody
absent) is attempted exactly once whatever the configured maximum. -/
theorem retry_attempt_counts (m : Int) (hm : 1 ≤ m) (errAt : Nat → Bool)
    (herr : ∀ a, errAt a = true) :
    clientDoAttempts ("GET") false false m none errAt = m.toNat ∧
    clientDoAttempts ("POST") true false m none errAt = 1 := by
  constructor
  · have h0 : ¬ (m ≤ 0) := by omega
    simp only [clientDoAttempts, if_neg h0]
    rw [show isIdempotentMethod ("GET") = true from by decide]
    norm_num
    rw [attemptLoop_const _ (fun a => by simp [herr a]) m.toNat 0]
    omega
  · simp only [clientDoAttempts]
    rw [show isIdempotentMethod ("POST") = false from by decide]
    norm_num [attemptLoop]

theorem retry_attempt_counts_witness :
    clientDoAttempts ("GET") false false 3 none (fun _ => true) = (3 : Int).toNat ∧
    clientDoAttempts ("POST") true false 3 none (fun _ => true) = 1 :=
  retry_attempt_counts 3 (by norm_num) (fun _ => true) (fun _ => rfl)

/-- C10 (confirmed): idempotency is decided by exact, case-sensitive
comparison with the six method names, and any other method string (for
example lowercase get) makes `Client.Do` perform exactly one attempt no
matter the configured maximum, the retry predicate, or the body state. -/
theorem method_case_sensitive (method : String)
    (h : method ∉ [("GET" : String), "HEAD", "OPTIONS", "DELETE", "PUT", "TRACE"])
    (hasBody hasGetBody : Bool) (maxIdem : Int) (retryIf : Option (Nat → Bool))
    (errAt : Nat → Bool) :
    isIdempotentMethod method = false ∧
    clientDoAttempts method hasBody hasGetBody maxIdem retryIf errAt = 1 := by
  have hid : isIdempotentMethod method = false := by
    unfold isIdempotentMethod
    rw [if_neg]
    intro hc
    apply h
    rcases hc with h1 | h1 | h1 | h1 | h1 | h1 <;> simp [h1]
  refine ⟨hid, ?_⟩
  simp only [clientDoAttempts, hid]
  norm_num [attemptLoop]

theorem method_case_sensitive_witness :
    isIdempotentMethod ("get") = false ∧
    clientDoAttempts ("get") false false 5 none (fun _ => true) = 1 :=
  method_case_sensitive ("get") (by decide) false false 5 none (fun _ => true)

/-- C7 (confirmed): whenever HTTP/3 is enabled together with any proxy
configuration, no HTTP/3 side-transport is constructed in the client
package and every request is dispatched over the primary transport; in the
api layer, HTTP3 plus any proxy option normalizes to HTTP2, whose transport
is TCP-based, never QUIC. -/
theorem http3_proxy_downgrade (cfg : ClientConfig) (pH s5 : List Char)
    (scheme : Option (List Char))
    (h1 : cfg.enableHTTP3 = true)
    (h2 : cfg.proxyURL ≠ [] ∨ cfg.proxyUsername ≠ [] ∨ cfg.proxyPassword ≠ [])
    (h3 : pH ≠ [] ∨ s5 ≠ []) :
    newHTTP3Client cfg = none ∧
    dispatchRoute (newHTTP3Client cfg) scheme = .primary ∧
    effectiveHTTPVersion 3 pH s5 = 2 ∧
    newHTTPClientKind (effectiveHTTPVersion 3 pH s5) = some .tcp := by
  have hn : newHTTP3Client cfg = none := by
    unfold newHTTP3Client
    rw [h1, if_neg (by decide), if_pos h2]
  have hv : effectiveHTTPVersion 3 pH s5 = 2 := by
    simp [effectiveHTTPVersion, h3]
  refine ⟨hn, by rw [hn]; rfl, hv, by rw [hv]; decide⟩

theorem http3_proxy_downgrade_witness :
    newHTTP3Client ⟨true, ("socks5://127.0.0.1:9050").toList, [], [], false⟩ = none ∧
    dispatchRoute (newHTTP3Client ⟨true, ("socks5://127.0.0.1:9050").toList, [], [], false⟩)
      (some (("https").toList)) = .primary ∧
    effectiveHTTPVersion 3 [] (("socks5://127.0.0.1:9050").toList) = 2 ∧
    newHTTPClientKind (effectiveHTTPVersion 3 [] (("socks5://127.0.0.1:9050").toList)) =
      some .tcp :=
  http3_proxy_downgrade _ _ _ _ rfl (Or.inl (by decide)) (Or.inr (by decide))

theorem poolNextRun_no_wrap (n : Nat) (hn : 1 ≤ n) :
    ∀ (k cursor : Nat), cursor + k < uint32Mod →
      poolNextRun n cursor k = (List.range k).map (fun j => (cursor + 1 + j) % n) := by
  intro k
  induction k with
  | zero => intro c _; rfl
  | succ m ih =>
    intro c hc
    have hn0 : ¬ (n = 0) := by omega
    have h1 : (c + 1) % uint32Mod = c + 1 := Nat.mod_eq_of_lt (by omega)
    simp only [poolNextRun, clientPoolNext, if_neg hn0, h1]
    rw [ih (c + 1) (by omega)]
    rw [List.range_succ_eq_map, List.map_cons, List.map_map]
    refine congrArg₂ _ (by norm_num) ?_
    apply List.map_congr_left
    intro a ha
    simp only [Function.comp]
    have he : c + 1 + 1 + a = c + 1 + (a + 1) := by omega
    rw [he]

theorem map_mod_range_perm (n c : Nat) (hn : 1 ≤ n) :
    ((List.range n).map (fun j => (c + j) % n)).Perm (List.range n) := by
  have hinj : ∀ x ∈ List.range n, ∀ y ∈ List.range n,
      (c + x) % n = (c + y) % n → x = y := by
    intro x hx y hy hxy
    rw [List.mem_range] at hx hy
    have h2 : x % n = y % n := Nat.ModEq.add_left_cancel' c hxy
    rwa [Nat.mod_eq_of_lt hx, Nat.mod_eq_of_lt hy] at h2
  have hnd : ((List.range n).map (fun j => (c + j) % n)).Nodup :=
    List.Nodup.map_on hinj (List.nodup_range n)
  have hsub : (List.range n).map (fun j => (c + j) % n) ⊆ List.range n := by
    intro x hx
    rw [List.mem_map] at hx
    obtain ⟨j, _, rfl⟩ := hx
    rw [List.mem_range]
    exact Nat.mod_lt _ (by omega)
  exact List.Subperm.perm_of_length_le (hnd.subperm hsub) (by simp)

/-- C8 (amended): for a pool of N clients, N consecutive `Next()` calls
return each client exactly once (as a multiset) from any cursor value whose
window does not cross the uint32 wraparound (`cursor + N < 2^32`); crossing
the wraparound can repeat and skip clients when N does not divide 2^32. -/
theorem pool_round_robin (n cursor : Nat) (hn : 1 ≤ n)
    (hw : cursor + n < uint32Mod) :
    (poolNextRun n cursor n).Perm (List.range n) := by
  rw [poolNextRun_no_wrap n hn n cursor hw]
  exact map_mod_range_perm n (cursor + 1) hn

theorem pool_round_robin_witness : (poolNextRun 3 5 3).Perm (List.range 3) :=
  pool_round_robin 3 5 (by norm_num) (by norm_num [uint32Mod])

/-- C8 (counterexample): with 3 clients and cursor 2^32 - 2, the next three
`Next()` calls return clients 0, 0, 1 — one client twice and one never — so
the round-robin multiset property fails across the uint32 wraparound. -/
theorem pool_round_robin_wraparound :
    ¬ (poolNextRun 3 4294967294 3).Perm (List.range 3) := by
  decide

/-- C9 (confirmed): with `MaxResponseBodySize = 10` and an 11-byte response
body, `GetBytes` reads exactly 11 bytes (one past the cap), reports
`ErrBodyTooLarge`, and returns no data. -/
theorem body_cap_error (body : List Nat) (h : body.length = 11) :
    clientGetBytes 10 body =
      { data := none, err := some .bodyTooLarge, bytesRead := 11 } := by
  have ht : body.take ((10 : Int).toNat + 1) = body := by
    apply List.take_of_length_le
    rw [h]
    decide
  norm_num [clientGetBytes, ht, h]

theorem body_cap_error_witness :
    clientGetBytes 10 [0, 1, 2, 3, 4, 5, 6, 7, 8, 9, 10] =
      { data := none, err := some .bodyTooLarge, bytesRead := 11 } :=
  body_cap_error _ (by decide)

/-- C5 (counterexample): the client package's `buildProxy` does not treat
scheme-less proxy strings as http: `user:pass@127.0.0.1:1080` parses with
scheme `user` and is rejected as an unsupported scheme, and bare
`127.0.0.1:1080` fails URL parsing outright, so client construction fails
for both. -/
theorem schemeless_proxy_rejected_by_client :
    buildProxy (("user:pass@127.0.0.1:1080").toList) [] [] =
      .error (.unsupportedScheme (("user").toList)) ∧
    buildProxy (("127.0.0.1:1080").toList) [] [] =
      .error (.invalidProxyURL .firstPathSegmentColon) := by
  exact ⟨rfl, rfl⟩

/-- C5 (amended): only the api-level `parseProxyURL` (behind
`SetProxy`/`SetProxyHTTP`) defaults a scheme-less proxy string to http:
`user:pass@127.0.0.1:1080` is prefixed with http:// and parses to scheme
http, host 127.0.0.1, port 1080, username user, password pass; the client
package's `buildProxy` instead rejects such strings. -/
theorem schemeless_proxy_defaults_http_in_api :
    parseProxyURL (("user:pass@127.0.0.1:1080").toList) (("http").toList) =
      .ok ⟨("http").toList, [], true, ("user").toList, true, ("pass").toList,
        ("127.0.0.1:1080").toList, []⟩ ∧
    GoURL.hostname ⟨("http").toList, [], true, ("user").toList, true,
        ("pass").toList, ("127.0.0.1:1080").toList, []⟩ = ("127.0.0.1").toList ∧
    GoURL.portStr ⟨("http").toList, [], true, ("user").toList, true,
        ("pass").toList, ("127.0.0.1:1080").toList, []⟩ = ("1080").toList := by
  exact ⟨rfl, rfl, rfl⟩

end V2F
